import Mathlib

/-!
Verification development for the ytarchive dual-track fragment download
engine (`Info.go`).  Go code is shallowly embedded: byte buffers are
`List Nat`, machine integers are `Nat`/`Int`, channels are explicit
queues, and the concurrent pipeline is run by a deterministic scheduler
that realises one legal interleaving of the goroutines.
-/

set_option maxRecDepth 8000

namespace YTArchive

/-- Constant `FragMaxTries = 10` from Info.go line 19. -/
def FragMaxTries : Nat := 10

/-- Constant `BufferSize = 8192` from Info.go line 24. -/
def BufferSize : Nat := 8192

/-- Big-endian 32-bit box size of an MP4 box header (first four bytes). -/
def boxSize (b : List Nat) : Nat :=
  (b.headD 0) * 16777216 + ((b.drop 1).headD 0) * 65536 +
    ((b.drop 2).headD 0) * 256 + ((b.drop 3).headD 0)

/-- Modelled from the spec: `RemoveSidx` is an external collaborator not
present in `src/`.  Per §4.3 it "returns the prefix with any `sidx` box
stripped"; an MPEG-DASH `sidx` box is an MP4 box whose type field (bytes
4..7) is the ASCII string "sidx".  On input that does not begin with a
`sidx` box it is the identity. -/
def RemoveSidx (b : List Nat) : List Nat :=
  if (b.drop 4).headD 0 = 115 ∧ (b.drop 5).headD 0 = 105 ∧
     (b.drop 6).headD 0 = 100 ∧ (b.drop 7).headD 0 = 120 ∧ 8 ≤ b.length then
    b.drop (boxSize b)
  else b

/-- The first buffered chunk of a fragment as built by Info.go lines
960-963: `buf := make([]byte, BufferSize)` is all zeroes, `data.Data.Read(buf)`
copies the first `min |payload| BufferSize` payload bytes into it, and the
returned count is ignored, so the whole `BufferSize`-byte buffer is passed
to `RemoveSidx` and written. -/
def firstChunkBuf (payload : List Nat) : List Nat :=
  payload.take BufferSize ++ List.replicate (BufferSize - payload.length) 0

/-- Bytes appended to the output file for one fragment, and the
`bytesWritten` count sent on the progress channel (Info.go lines 959-1014):
the first chunk is `RemoveSidx` of the full `BufferSize` buffer, subsequent
reads write `buf[:count]` verbatim, i.e. exactly `payload.drop BufferSize`. -/
def writeFragmentBytes (payload : List Nat) : List Nat × Nat :=
  let first := RemoveSidx (firstChunkBuf payload)
  let rest := payload.drop BufferSize
  (first ++ rest, first.length + rest.length)

/-- Lengths of the chunks the write loop issues for the part of a payload
after the first buffered chunk (successive `Read`s of up to `BufferSize`
bytes, Info.go lines 983-1006). -/
def chunkLens : Nat → List Nat
  | 0 => []
  | n + 1 =>
    (if n + 1 ≤ BufferSize then n + 1 else BufferSize) :: chunkLens (n + 1 - BufferSize)
decreasing_by simp [BufferSize]; omega

/-- Chunk lengths for writing one whole fragment: the (possibly
sidx-stripped, zero-padded) first chunk followed by the remaining payload
in `BufferSize` pieces. -/
def fragChunkLens (payload : List Nat) : List Nat :=
  (RemoveSidx (firstChunkBuf payload)).length :: chunkLens (payload.length - BufferSize)

/-- One write attempt of a fragment (one iteration of the retry scan in
Info.go lines 932-1011).  `oracle n` is the outcome of the n-th `f.Write`
call of the whole run: `none` means full success, `some a` means the write
failed after the kernel accepted `min a len` bytes (Go `File.Write` returns
the partial count together with the error, and the file offset has already
advanced by that count).  On failure the code executes
`f.Seek(int64(bytesWritten), 1)`, i.e. moves a further `bytesWritten`
(the bytes accepted so far for this fragment) forward from the current
position.  Returns (attempt succeeded, next write-op index, file position). -/
def attemptChunks (oracle : Nat → Option Nat) :
    List Nat → Nat → Int → Nat → Bool × Nat × Int
  | [], ops, pos, _ => (true, ops, pos)
  | c :: rest, ops, pos, bw =>
    match oracle ops with
    | none => attemptChunks oracle rest (ops + 1) (pos + c) (bw + c)
    | some a =>
      let acc := if a ≤ c then a else c
      (false, ops + 1, pos + acc + (bw + acc))

/-- Result of the per-fragment write retry loop. -/
structure WriteRes where
  ok : Bool
  pos : Int
  triesLeft : Nat
  ops : Nat
deriving DecidableEq, Repr

/-- The per-fragment write retry loop of Info.go lines 932-1032 with file
reads succeeding: while `tries > 0`, re-read the fragment, attempt all its
chunk writes; a failed attempt decrements `tries` and retries; a successful
attempt advances `cur_frag` and resets `tries` to 10.  `triesLeft = 0`
with `ok = false` is the state in which line 1040 (`tries <= 0`) calls
`di.Stop()`. -/
def writeFragLoop (oracle : Nat → Option Nat) (chunks : List Nat) :
    Nat → Nat → Int → WriteRes
  | 0, ops, pos => ⟨false, pos, 0, ops⟩
  | Nat.succ t, ops, pos =>
    match attemptChunks oracle chunks ops pos 0 with
    | (true, ops2, pos2) => ⟨true, pos2, 10, ops2⟩
    | (false, ops2, pos2) => writeFragLoop oracle chunks t ops2 pos2

/-- Helper for the model of Go `strconv.Atoi`: value of a non-empty
all-digit string, `none` on any non-digit. -/
def digitsValAux : List Char → Nat → Option Nat
  | [], acc => some acc
  | c :: rest, acc =>
    if c.isDigit then digitsValAux rest (acc * 10 + (c.toNat - 48)) else none

/-- Value of a non-empty digit string; `none` if empty or not all digits. -/
def digitsVal : List Char → Option Nat
  | [] => none
  | cs => digitsValAux cs 0

/-- Syntactic parse of Go `strconv.Atoi`: optional sign followed by one or
more digits; `none` on any syntax error. -/
def parseIntOpt (s : String) : Option Int :=
  match s.data with
  | '+' :: rest => (digitsVal rest).map Int.ofNat
  | '-' :: rest => (digitsVal rest).map (fun v => -(v : Int))
  | l => (digitsVal l).map Int.ofNat

/-- Saturation of `strconv.Atoi` to the 64-bit range: on range error Go
returns the clamped boundary value (together with an error the code
discards). -/
def clampInt64 (v : Int) : Int :=
  if v > 9223372036854775807 then 9223372036854775807
  else if v < -9223372036854775808 then -9223372036854775808
  else v

/-- Model of `headerSeqnum, _ = strconv.Atoi(headerSeqnumStr)`: the error
is discarded, so a syntax error yields Atoi's zero value and a range error
yields the saturated boundary. -/
def goAtoi (s : String) : Int :=
  match parseIntOpt s with
  | none => 0
  | some v => clampInt64 v

/-- The `head_seq` recorded for a published fragment, from Info.go lines
763-769.  `http.Header.Get` returns `""` for an absent header, so the
argument is the raw header string (empty = absent); the value starts at
`-1` and is overwritten by `goAtoi` whenever the string is non-empty. -/
def headSeqnumOf (header : String) : Int :=
  if header.length > 0 then goAtoi header else -1

/-- Per-track shared state relevant to URL handling: the two fields of
`MediaDLInfo` written by `SetDownloadUrl` (Info.go lines 104-112). -/
structure MediaDLInfo where
  DownloadURL : String
  URLHost : String
deriving DecidableEq, Repr

/-- Whether a string contains an ASCII control character.  Go
`net/url.Parse` returns an error exactly on such URLs (`"net/url: invalid
control character in URL"`); this is the error case the model keeps. -/
def hasCtl (s : String) : Bool :=
  s.data.any (fun c => c.toNat < 32 || c.toNat == 127)

/-- Characters following the first `"://"`, if any. -/
def afterScheme : List Char → Option (List Char)
  | ':' :: '/' :: '/' :: rest => some rest
  | _ :: rest => afterScheme rest
  | [] => none

/-- Characters before the first `'/'`. -/
def takeUntilSlash : List Char → List Char
  | [] => []
  | '/' :: _ => []
  | c :: rest => c :: takeUntilSlash rest

/-- Host component of a URL string: the part between `"://"` and the next
`"/"` (simplified model of `(*net/url.URL).Host`). -/
def extractHost (s : String) : String :=
  match afterScheme s.data with
  | none => ""
  | some rest => String.mk (takeUntilSlash rest)

/-- Model of `url.Parse` restricted to what `SetDownloadUrl` uses: `none`
when Go's parser errors (control character in the URL), otherwise the host. -/
def goUrlParseHost (s : String) : Option String :=
  if hasCtl s then none else some (extractHost s)

/-- `SetDownloadUrl` (Info.go lines 253-263): under the track's write lock,
parse the new URL; only if parsing succeeded overwrite `URLHost`; in every
case overwrite `DownloadURL`. -/
def SetDownloadUrl (m : MediaDLInfo) (dlURL : String) : MediaDLInfo :=
  match goUrlParseHost dlURL with
  | some h => ⟨dlURL, h⟩
  | none => ⟨dlURL, m.URLHost⟩

/-- Decimal digit as a character. -/
def digitChar (d : Nat) : Char := Char.ofNat (48 + d)

/-- Decimal rendering of a natural number, most significant digit first
(fuel-based; called with fuel `n`). -/
def natToCharsGo : Nat → Nat → List Char
  | 0, n => [digitChar n]
  | fuel + 1, n =>
    if n < 10 then [digitChar n]
    else natToCharsGo fuel (n / 10) ++ [digitChar (n % 10)]

/-- Decimal rendering of a natural number as a string. -/
def natToString (n : Nat) : String := String.mk (natToCharsGo n n)

/-- Replace the first occurrence of `"%d"` by the given characters. -/
def formatSeqGo (ins : List Char) : List Char → List Char
  | [] => []
  | '%' :: 'd' :: rest => ins ++ rest
  | c :: rest => c :: formatSeqGo ins rest

/-- Model of Go `fmt.Sprintf` on a template containing one `%d` verb:
replaces the first `%d` with the decimal rendering of `n`. -/
def formatSeq (tmpl : String) (n : Nat) : String :=
  String.mk (formatSeqGo (natToString n).data tmpl.data)

/-- The fields of `fragThreadState` (Info.go lines 90-102) that determine
a worker's HTTP requests: `Url` is filled once, at worker start. -/
structure fragThreadState where
  Url : String
  SleepTime : Nat
deriving DecidableEq, Repr

/-- `NewFragThreadState` as called from `DownloadFrags` (Info.go lines
803-810): the URL template is read through `GetDownloadUrl` once, when the
worker starts, and cached in the thread state; `SleepTime` is the stream's
target fragment duration. -/
def NewFragThreadState (m : MediaDLInfo) (targetDuration : Nat) : fragThreadState :=
  ⟨m.DownloadURL, targetDuration⟩

/-- The observable shape of one fetch attempt's HTTP request. -/
structure HttpRequestShape where
  url : String
  hostHeader : String
deriving DecidableEq, Repr

/-- The request built by one attempt of `downloadFragment` (Info.go lines
684-703): the URL comes from the cached `state.Url` template, while the
`Host`/`Referer` headers re-read the track's current `URLHost` through the
mutex-guarded accessor (`GetDownloadUrlHost`). -/
def fragRequest (st : fragThreadState) (current : MediaDLInfo) (seqNum : Nat) :
    HttpRequestShape :=
  ⟨formatSeq st.Url seqNum, current.URLHost⟩

/-- Process-wide flags touched by `Stop` (Info.go lines 117-146, restricted
to `Stopping` and the two tracks' `Finished` flags). -/
structure GlobalFlags where
  stopping : Bool
  audioFinished : Bool
  videoFinished : Bool
deriving DecidableEq, Repr

/-- `Stop` (Info.go lines 203-209): sets the sticky `Stopping` flag and
marks both the audio and the video track finished. -/
def Stop (_ : GlobalFlags) : GlobalFlags :=
  ⟨true, true, true⟩

/-- Outcome of the `DownloadStream` prologue (Info.go lines 833-864). -/
structure StreamStartResult where
  flags : GlobalFlags
  workersSpawned : Nat
  outputBytes : List Nat
  doneSignals : Nat
  proceeded : Bool
deriving DecidableEq, Repr

/-- The prologue of `DownloadStream` (Info.go lines 846-864): the send on
`done` is deferred before the `os.Create` error check, so it fires exactly
once on every exit path; if `os.Create` fails the function logs, calls
`di.Stop()` and returns before spawning any worker or writing any byte;
otherwise it proceeds to priming and the main loop (not modelled here). -/
def DownloadStreamOpen (g : GlobalFlags) (createOk : Bool) : StreamStartResult :=
  if createOk then ⟨g, 0, [], 0, true⟩
  else ⟨Stop g, 0, [], 1, false⟩

/-- Classified outcome of one fetch attempt inside `downloadFragment`
(Info.go lines 679-798): transport error on `client.Do`/`Get`, body-read
error, HTTP status `>= 400`, empty success body, spill-file write failure,
or a non-empty success carrying the parsed `X-Head-Seqnum` value. -/
inductive FetchOutcome where
  | reqError
  | readError
  | httpError (code : Nat)
  | emptyBody
  | writeFail
  | fetchOk (headSeq : Int)
deriving DecidableEq, Repr

/-- Environment of one loop iteration: the process `stopping` flag as seen
by the check at the top of the loop, and the attempt's outcome. -/
structure AttemptEnv where
  stopping : Bool
  outcome : FetchOutcome
deriving DecidableEq, Repr

/-- Observable events of `downloadFragment`: a fetch attempt, and a
`time.Sleep(state.SleepTime)` with its duration. -/
inductive DFEvent where
  | attemptE
  | sleepE (d : Nat)
deriving DecidableEq, Repr

/-- How `downloadFragment` returned. -/
inductive DFExit where
  | stoppedE
  | publishedE
  | abandonedE
  | exhaustedE
deriving DecidableEq, Repr

/-- Result of a `downloadFragment` run: its event trace, the fragment
published on the data channel (`none` when the worker gave up), the exit
reason, and how many times `ContinueFragmentDownload` was consulted. -/
structure DFResult where
  events : List DFEvent
  sent : Option Int
  exitR : DFExit
  contCalls : Nat
deriving DecidableEq, Repr

/-- The retry loop of `downloadFragment` (Info.go lines 679-798).
`env i` describes iteration `i`; `cont tries is403` is the external
collaborator `ContinueFragmentDownload` (modelled from the spec: an
authoritative boolean decision given the updated worker state);
`sleepT` is `state.SleepTime`.  Fuel is `FragMaxTries - state.Tries`,
mirroring the loop condition `state.Tries < FragMaxTries`; every failing
branch does `state.Tries += 1`, consults the hook, and on a positive
answer sleeps and retries; `HandleFragHttpError` (modelled from the spec)
records `is403` on a 403 status; a success publishes exactly one fragment
and returns. -/
def downloadFragmentGo (env : Nat → AttemptEnv) (cont : Nat → Bool → Bool)
    (sleepT : Nat) : Nat → Nat → Bool → Nat → DFResult
  | 0, _, _, _ => ⟨[], none, .exhaustedE, 0⟩
  | fuel + 1, tries, is403, idx =>
    let a := env idx
    if a.stopping then ⟨[], none, .stoppedE, 0⟩
    else
      match a.outcome with
      | .fetchOk h => ⟨[.attemptE], some h, .publishedE, 0⟩
      | o =>
        let tries2 := tries + 1
        let is4032 := match o with
          | .httpError c => is403 || (c == 403)
          | _ => is403
        if cont tries2 is4032 then
          let r := downloadFragmentGo env cont sleepT fuel tries2 is4032 (idx + 1)
          ⟨.attemptE :: .sleepE sleepT :: r.events, r.sent, r.exitR, r.contCalls + 1⟩
        else ⟨[.attemptE], none, .abandonedE, 1⟩

/-- A whole `downloadFragment` call: tries start at 0, `is403` at false. -/
def runDF (env : Nat → AttemptEnv) (cont : Nat → Bool → Bool)
    (targetDuration : Nat) : DFResult :=
  downloadFragmentGo env cont targetDuration FragMaxTries 0 false 0

/-- Number of fetch attempts in a trace. -/
def countAttempts (l : List DFEvent) : Nat :=
  (l.filter (fun e => e = DFEvent.attemptE)).length

/-- No two fetch attempts are adjacent, i.e. a sleep separates every pair
of consecutive attempts. -/
def noAdjacentAttempts : List DFEvent → Bool
  | [] => true
  | [_] => true
  | .attemptE :: .attemptE :: _ => false
  | _ :: e :: rest => noAdjacentAttempts (e :: rest)

/-- Every sleep in the trace has the given duration. -/
def sleepsAre (d : Nat) (l : List DFEvent) : Bool :=
  l.all (fun e => match e with | .sleepE x => x == d | _ => true)

/-- Coordinator-local dispatch state of `DownloadStream` (Info.go lines
837-841 and the track's `ActiveJobs`): `trace` records the sequence
numbers sent on `seqChan` in order. -/
structure CoordState where
  curSeq : Nat
  activeDownloads : Int
  maxSeqs : Int
  activeJobs : Int
  trace : List Nat
deriving DecidableEq, Repr

/-- One enqueue on `seqChan`: `seqChan <- {curSeq, maxSeqs}; curSeq += 1;
activeDownloads += 1` (Info.go lines 896-898, 901-903, 921-923). -/
def enqueueReq (s : CoordState) : CoordState :=
  { s with curSeq := s.curSeq + 1, activeDownloads := s.activeDownloads + 1,
           trace := s.trace ++ [s.curSeq] }

/-- The windowed dispatch loop `for curSeq <= maxSeqs+1 && activeDownloads <
di.Jobs` (Info.go lines 895-899).  Fuel `(jobs - activeDownloads).toNat`
dominates the iteration count (each pass raises `activeDownloads` by one
while the guard requires it below `jobs`), so with that fuel this equals
the `while` loop. -/
def dispatchWide (jobs : Nat) : Nat → CoordState → CoordState
  | 0, s => s
  | fuel + 1, s =>
    if (s.curSeq : Int) ≤ s.maxSeqs + 1 ∧ s.activeDownloads < (jobs : Int) then
      dispatchWide jobs fuel (enqueueReq s)
    else s

/-- The stall-recovery loop `for activeDownloads <
di.GetActiveJobCount(dataType)` (Info.go lines 920-924). -/
def stallGo : Nat → CoordState → CoordState
  | 0, s => s
  | fuel + 1, s =>
    if s.activeDownloads < s.activeJobs then stallGo fuel (enqueueReq s)
    else s

/-- Stall recovery with its exact fuel: dispatches fresh requests at
`curSeq, curSeq+1, ...` until `activeDownloads` equals the track's
`activeJobs`. -/
def stallFill (s : CoordState) : CoordState :=
  stallGo (s.activeJobs - s.activeDownloads).toNat s

/-- Counter-relevant coordinator transitions: receiving one fragment from
`dataChan` (with the iteration's `downloading`/`stopping` snapshot and the
fragment's head-seq), running stall recovery, and a worker exiting
(`defer di.DecrementJobs`). -/
inductive CoordEvent where
  | recv (headSeq : Int) (downloading stopping : Bool)
  | stall
  | workerExit
deriving DecidableEq, Repr

/-- One coordinator transition (Info.go lines 881-904 for `recv`, 920-924
for `stall`, line 802 for `workerExit`): a received fragment decrements
`activeDownloads`; while still downloading and not stopping it raises
`maxSeqs` by max and dispatches — the window loop when `maxSeqs > 0`,
otherwise exactly one request. -/
def coordStep (jobs : Nat) (s : CoordState) : CoordEvent → CoordState
  | .recv h downloading stopping =>
    let s1 := { s with activeDownloads := s.activeDownloads - 1 }
    if downloading && !stopping then
      let s2 := { s1 with maxSeqs := max s1.maxSeqs h }
      if s2.maxSeqs > 0 then
        dispatchWide jobs (((jobs : Int) - s2.activeDownloads).toNat) s2
      else enqueueReq s2
    else s1
  | .stall => stallFill s
  | .workerExit => { s with activeJobs := s.activeJobs - 1 }

/-- One pass of the priming loop (Info.go lines 856-864): increment the
job counter, enqueue, bump `curSeq` and `activeDownloads`, spawn the
worker. -/
def primeStep (s : CoordState) : CoordState :=
  { s with curSeq := s.curSeq + 1, activeDownloads := s.activeDownloads + 1,
           activeJobs := s.activeJobs + 1, trace := s.trace ++ [s.curSeq] }

/-- The priming loop `for di.GetActiveJobCount(dataType) < di.Jobs`. -/
def primeGo (jobs : Nat) : Nat → CoordState → CoordState
  | 0, s => s
  | fuel + 1, s =>
    if s.activeJobs < (jobs : Int) then primeGo jobs fuel (primeStep s)
    else s

/-- Coordinator state right after priming, starting from the zero state of
Info.go lines 837-841 (`curSeq = 0`, `activeDownloads = 0`, `maxSeqs = -1`)
and a fresh track (`ActiveJobs = 0`). -/
def coordInit (jobs : Nat) : CoordState :=
  primeGo jobs jobs ⟨0, 0, -1, 0, []⟩

/-- A coordinator run: priming followed by any sequence of transitions. -/
def coordRun (jobs : Nat) (evs : List CoordEvent) : CoordState :=
  evs.foldl (coordStep jobs) (coordInit jobs)

/-- A fetched fragment as published on `dataChan` (`Fragment`, Info.go
lines 75-80, with the payload in memory). -/
structure FragData where
  seq : Nat
  headSeq : Int
  payload : List Nat
deriving DecidableEq, Repr

/-- Whole-pipeline state for one track with `Jobs = 1`: the coordinator's
locals from `DownloadStream`, the shared flags, both channels as queues,
and the single worker's status.  `written` is the ordered log of
successful contiguous writes — each entry a fragment together with the
`maxSeqs` value at write time; the output file's byte content and the
progress-channel messages are derived from it by `fileContent` and
`progressMsgs`. -/
structure Sys where
  curFrag : Nat
  curSeq : Nat
  activeDownloads : Int
  maxSeqs : Int
  dataToWrite : List FragData
  written : List (FragData × Int)
  closed : Bool
  coordDone : Bool
  stopping : Bool
  finished : Bool
  activeJobs : Int
  seqQueue : List (Nat × Int)
  dataQueue : List FragData
  workerExited : Bool
deriving DecidableEq, Repr

/-- The output file's byte content: the concatenation, in write order, of
what the write phase emits for each written fragment (`writeFragmentBytes`,
i.e. Info.go lines 959-1006). -/
def fileContent (s : Sys) : List Nat :=
  (s.written.map (fun x => (writeFragmentBytes x.1.payload).1)).flatten

/-- The progress-channel messages `{dataType, bytesWritten, maxSeqs}`
(Info.go line 1014), one per written fragment, restricted to the byte
count and head-seq fields. -/
def progressMsgs (s : Sys) : List (Nat × Int) :=
  s.written.map (fun x => ((writeFragmentBytes x.1.payload).2, x.2))

/-- The server as an oracle: what one `downloadFragment` call for a given
sequence ends in — `some (payload, headSeq)` when it publishes a fragment,
`none` when the worker gives up on the sequence without publishing. -/
def FetchFn : Type := Nat → Option (List Nat × Int)

/-- Enqueue `seqChan <- &seqChanInfo{curSeq, maxSeqs}` in the pipeline
model. -/
def sysEnqueue (s : Sys) : Sys :=
  { s with seqQueue := s.seqQueue ++ [(s.curSeq, s.maxSeqs)],
           curSeq := s.curSeq + 1, activeDownloads := s.activeDownloads + 1 }

/-- The windowed dispatch loop of Info.go lines 895-899 on pipeline state. -/
def sysDispatchWide (jobs : Nat) : Nat → Sys → Sys
  | 0, s => s
  | fuel + 1, s =>
    if (s.curSeq : Int) ≤ s.maxSeqs + 1 ∧ s.activeDownloads < (jobs : Int) then
      sysDispatchWide jobs fuel (sysEnqueue s)
    else s

/-- The stall-recovery loop of Info.go lines 920-924 on pipeline state. -/
def sysStallGo : Nat → Sys → Sys
  | 0, s => s
  | fuel + 1, s =>
    if s.activeDownloads < s.activeJobs then sysStallGo fuel (sysEnqueue s)
    else s

/-- Handling of one fragment received in the drain `select` (Info.go lines
881-904): append to `dataToWrite`, decrement `activeDownloads`, and while
downloading and not stopping raise `maxSeqs` and dispatch. -/
def drainOne (jobs : Nat) (downloading stopping : Bool) (s : Sys)
    (d : FragData) : Sys :=
  let s1 := { s with dataToWrite := s.dataToWrite ++ [d],
                     activeDownloads := s.activeDownloads - 1 }
  if downloading && !stopping then
    let s2 := { s1 with maxSeqs := max s1.maxSeqs d.headSeq }
    if s2.maxSeqs > 0 then
      sysDispatchWide jobs (((jobs : Int) - s2.activeDownloads).toNat) s2
    else sysEnqueue s2
  else s1

/-- Non-blocking drain of everything currently in `dataChan`. -/
def drainAll (jobs : Nat) (downloading stopping : Bool) :
    List FragData → Sys → Sys
  | [], s => s
  | d :: rest, s => drainAll jobs downloading stopping rest
      (drainOne jobs downloading stopping s d)

/-- Remove the first list element satisfying the test, returning it and
the remainder in order (the code's slice-splice removal at index `i`,
Info.go line 1026). -/
def extractFirst (p : FragData → Bool) : List FragData →
    Option (FragData × List FragData)
  | [] => none
  | d :: rest =>
    if p d then some (d, rest)
    else
      match extractFirst p rest with
      | none => none
      | some (x, l) => some (x, d :: l)

/-- The write-phase scan (Info.go lines 931-1033) with file I/O
succeeding: repeatedly find the buffered fragment with `seq == curFrag`,
append its `writeFragmentBytes` to the output, emit a progress message
`(bytesWritten, maxSeqs)`, remove it, and restart the scan; stop when no
contiguous fragment is buffered. -/
def findWrite : Nat → Sys → Sys
  | 0, s => s
  | fuel + 1, s =>
    match extractFirst (fun d => d.seq = s.curFrag) s.dataToWrite with
    | none => s
    | some (d, rest) =>
      findWrite fuel
        { s with written := s.written ++ [(d, s.maxSeqs)],
                 curFrag := s.curFrag + 1, dataToWrite := rest }

/-- One iteration of the coordinator's main loop (Info.go lines 866-1045)
with `Jobs = 1` and all file I/O succeeding: recompute
`downloading`/`stopping`, close `seqChan` once either forces it, drain the
data channel dispatching per fragment, exit when not downloading, run
stall recovery and sleep when there is nothing to write or nothing was
received, otherwise run the write phase. -/
def coordIter (fetchJobs : Nat) (s : Sys) : Sys :=
  if s.coordDone then s
  else
    let downloading := !s.finished || decide (s.activeJobs > 0)
    let stopping := s.stopping
    let s1 := if stopping || !downloading then { s with closed := true } else s
    let received := s1.dataQueue
    let s2 := drainAll fetchJobs downloading stopping received
      { s1 with dataQueue := [] }
    if !downloading then { s2 with coordDone := true }
    else if s2.dataToWrite.isEmpty || received.isEmpty then
      if !stopping && decide (s2.activeDownloads ≤ 0) then
        sysStallGo (s2.activeJobs - s2.activeDownloads).toNat s2
      else s2
    else findWrite s2.dataToWrite.length s2

/-- The single worker's handling of one `seqChanInfo` received from
`seqChan` (`DownloadFrags`, Info.go lines 812-827, plus one whole
`downloadFragment` call abstracted by the fetch oracle): a request seen
while stopping or finished makes the worker break out and decrement the
job count; a request with a head-seq snapshot (`MaxSequence > -1`) on a
non-live stream whose `CurSequence` has reached that snapshot marks the
track finished and breaks out — without fetching that sequence; otherwise
the worker fetches, publishing a fragment exactly when the oracle says the
download succeeded. -/
def workerHandleReq (fetch : FetchFn) (live : Bool) (s : Sys)
    (req : Nat × Int) : Sys :=
  if s.stopping || s.finished then
    { s with workerExited := true, activeJobs := s.activeJobs - 1 }
  else if req.2 > -1 && !live && decide ((req.1 : Int) ≥ req.2) then
    { s with finished := true, workerExited := true,
             activeJobs := s.activeJobs - 1 }
  else
    match fetch req.1 with
    | some (p, h) => { s with dataQueue := s.dataQueue ++ [⟨req.1, h, p⟩] }
    | none => s

/-- Run the worker until it blocks on an empty open channel, exits, or the
fuel (queue length + 1) is spent: `for seqInfo := range seqChan` consumes
requests in order; when the channel is closed and drained the range ends
and the deferred `DecrementJobs` runs. -/
def workerRun (fetch : FetchFn) (live : Bool) : Nat → Sys → Sys
  | 0, s => s
  | fuel + 1, s =>
    if s.workerExited then s
    else
      match s.seqQueue with
      | [] =>
        if s.closed then
          { s with workerExited := true, activeJobs := s.activeJobs - 1 }
        else s
      | r :: rest =>
        workerRun fetch live fuel
          (workerHandleReq fetch live { s with seqQueue := rest } r)

/-- One scheduler step of the pipeline: the coordinator performs one main
loop iteration, then the worker consumes every request currently queued.
This is one legal interleaving of the two goroutines. -/
def sysStep (fetch : FetchFn) (live : Bool) (s : Sys) : Sys :=
  let c := coordIter 1 s
  workerRun fetch live (c.seqQueue.length + 1) c

/-- Pipeline state right after `DownloadStream`'s prologue with `Jobs = 1`
(Info.go lines 833-864): one worker spawned, one request `{0, -1}` queued,
`curSeq = 1`, `activeDownloads = 1`, `maxSeqs = -1`. -/
def sysInit : Sys :=
  { curFrag := 0, curSeq := 1, activeDownloads := 1, maxSeqs := -1,
    dataToWrite := [], written := [], closed := false,
    coordDone := false, stopping := false, finished := false,
    activeJobs := 1, seqQueue := [(0, -1)], dataQueue := [],
    workerExited := false }

/-- Iterated scheduler steps. -/
def sysRun (fetch : FetchFn) (live : Bool) : Nat → Sys
  | 0 => sysInit
  | n + 1 => sysStep fetch live (sysRun fetch live n)

/-- Server for the C3 counterexample run: every sequence downloads
successfully with a one-byte body, every response advertises
`X-Head-Seqnum: 1`, i.e. the stream's final head is `K = 1`. -/
def fetchHeadOne : FetchFn := fun n => some ([100 + n], 1)

/-- Server for the C2 counterexample run: every response advertises
`X-Head-Seqnum: 4`; sequence 2 is abandoned by the worker (its
`downloadFragment` call publishes nothing, e.g. after
`ContinueFragmentDownload` returned false), all other sequences download
one-byte bodies. -/
def fetchAbandonTwo : FetchFn :=
  fun n => if n = 2 then none else some ([97 + n], 4)

/-- Write oracle for the C4 run: the first `f.Write` of the run fails
after the kernel accepted 5 bytes, every later write fully succeeds. -/
def writeOracleC4 : Nat → Option Nat := fun n => if n = 0 then some 5 else none

/-- Write oracle under which every write fails with nothing accepted. -/
def writeOracleFail : Nat → Option Nat := fun _ => some 0

/-- Head of a dropped replicate list, with default. -/
theorem headD_drop_replicate (a d n k : Nat) :
    ((List.replicate n a).drop k).headD d = if k < n then a else d := by
  rw [List.drop_replicate]
  by_cases h : k < n
  · obtain ⟨m, hm⟩ : ∃ m, n - k = m + 1 := ⟨n - k - 1, by omega⟩
    rw [hm, List.replicate_succ]
    simp [h]
  · have hz : n - k = 0 := by omega
    rw [hz]
    simp [h]

/-- The padded first-chunk buffer for the one-byte payload `"a"`. -/
theorem firstChunkBuf_singleton : firstChunkBuf [97] = 97 :: List.replicate 8191 0 := by
  simp only [firstChunkBuf]
  rw [List.take_of_length_le (by simp [BufferSize])]
  norm_num [BufferSize]

/-- `RemoveSidx` is a no-op on the padded `"a"` buffer: the box-type bytes
are zero padding, not `"sidx"`. -/
theorem RemoveSidx_padded_singleton :
    RemoveSidx (97 :: List.replicate 8191 0) = 97 :: List.replicate 8191 0 := by
  simp only [RemoveSidx]
  rw [if_neg]
  intro h
  have hA := h.1
  have hd : (97 :: List.replicate 8191 0).drop 4 = (List.replicate 8191 0).drop 3 := rfl
  rw [hd, headD_drop_replicate] at hA
  norm_num at hA

/-- What the write phase emits for the one-byte payload `"a"`. -/
theorem writeFragmentBytes_singleton :
    writeFragmentBytes [97] = ([97] ++ List.replicate 8191 0, 8192) := by
  simp only [writeFragmentBytes, firstChunkBuf_singleton, RemoveSidx_padded_singleton]
  have hdrop : ([97] : List Nat).drop BufferSize = [] := rfl
  rw [hdrop]
  simp only [List.append_nil, List.singleton_append, List.length_cons,
    List.length_replicate, List.length_nil, Prod.mk.injEq]

/-- C1.  The write phase does not produce the concatenation of the raw
payloads: `data.Data.Read(buf)` at Info.go line 962 ignores the byte
count, so for the literal scenario (one-byte fragment body `"a"`, sidx
stripping a no-op) the code writes the byte followed by 8191 zero-padding
bytes and reports `byte_count = 8192` on the progress channel, not the
claimed payload `"a"` with `byte_count = 1`. -/
theorem C1_first_chunk_zero_padded :
    writeFragmentBytes [97] = ([97] ++ List.replicate 8191 0, 8192) ∧
    (writeFragmentBytes [97]).2 ≠ 1 := by
  refine ⟨writeFragmentBytes_singleton, ?_⟩
  rw [writeFragmentBytes_singleton]
  decide

/-- Step 1 of the C2 run: the worker fetches sequence 0. -/
theorem c2run1 : sysRun fetchAbandonTwo false 1 =
    ⟨0, 1, 1, -1, [], [], false, false, false, false, 1, [],
      [⟨0, 4, [97]⟩], false⟩ := by
  decide

/-- Step 2 of the C2 run: fragment 0 is written, request `(1,4)` is
dispatched and fetched. -/
theorem c2run2 : sysRun fetchAbandonTwo false 2 =
    ⟨1, 2, 1, 4, [], [(⟨0, 4, [97]⟩, 4)], false, false, false, false, 1, [],
      [⟨1, 4, [98]⟩], false⟩ := by
  have h : sysRun fetchAbandonTwo false 2 =
      sysStep fetchAbandonTwo false (sysRun fetchAbandonTwo false 1) := rfl
  rw [h, c2run1]
  decide

/-- Step 3 of the C2 run: fragment 1 is written, request `(2,4)` is
dispatched and the worker abandons it without publishing. -/
theorem c2run3 : sysRun fetchAbandonTwo false 3 =
    ⟨2, 3, 1, 4, [], [(⟨0, 4, [97]⟩, 4), (⟨1, 4, [98]⟩, 4)], false, false,
      false, false, 1, [], [], false⟩ := by
  have h : sysRun fetchAbandonTwo false 3 =
      sysStep fetchAbandonTwo false (sysRun fetchAbandonTwo false 2) := rfl
  rw [h, c2run2]
  decide

/-- Step 4 of the C2 run equals step 3: the system is stuck. -/
theorem c2run4 : sysRun fetchAbandonTwo false 4 =
    ⟨2, 3, 1, 4, [], [(⟨0, 4, [97]⟩, 4), (⟨1, 4, [98]⟩, 4)], false, false,
      false, false, 1, [], [], false⟩ := by
  have h : sysRun fetchAbandonTwo false 4 =
      sysStep fetchAbandonTwo false (sysRun fetchAbandonTwo false 3) := rfl
  rw [h, c2run3]
  decide

/-- C2 counterexample.  Concrete run (`Jobs = 1`, `live = false`, server
head-seq 4, worker abandons sequence 2 without publishing): after three
scheduler steps the system is a fixpoint of `sysStep` — so it never
changes again — with `curFrag = 2`, an empty request queue,
`activeDownloads` stuck at 1 (the abandoned download is still counted, so
the stall-recovery guard `activeDownloads <= 0` can never fire), and only
fragments 0 and 1 in the output.  The abandoned sequence 2 is never
re-dispatched and the output never contains it, refuting the claim. -/
theorem C2_abandoned_sequence_lost :
    sysRun fetchAbandonTwo false 4 = sysRun fetchAbandonTwo false 3 ∧
    (sysRun fetchAbandonTwo false 3).curFrag = 2 ∧
    (sysRun fetchAbandonTwo false 3).seqQueue = [] ∧
    (sysRun fetchAbandonTwo false 3).activeDownloads = 1 ∧
    (sysRun fetchAbandonTwo false 3).stopping = false ∧
    fileContent (sysRun fetchAbandonTwo false 3) =
      (writeFragmentBytes [97]).1 ++ (writeFragmentBytes [98]).1 := by
  rw [c2run4, c2run3]
  refine ⟨rfl, rfl, rfl, rfl, rfl, ?_⟩
  simp [fileContent]

/-- Step 1 of the C3 run: the worker fetches sequence 0 (head 1). -/
theorem c3run1 : sysRun fetchHeadOne false 1 =
    ⟨0, 1, 1, -1, [], [], false, false, false, false, 1, [],
      [⟨0, 1, [100]⟩], false⟩ := by
  decide

/-- Step 2 of the C3 run: fragment 0 written; the dispatched request
`(1,1)` has `CurSequence >= MaxSequence`, so the worker marks the track
finished and exits without fetching sequence 1. -/
theorem c3run2 : sysRun fetchHeadOne false 2 =
    ⟨1, 2, 1, 1, [], [(⟨0, 1, [100]⟩, 1)], false, false, false, true, 0, [],
      [], true⟩ := by
  have h : sysRun fetchHeadOne false 2 =
      sysStep fetchHeadOne false (sysRun fetchHeadOne false 1) := rfl
  rw [h, c3run1]
  decide

/-- Step 3 of the C3 run: `downloading` is now false, the coordinator
closes the channel and terminates with `curFrag = 1`. -/
theorem c3run3 : sysRun fetchHeadOne false 3 =
    ⟨1, 2, 1, 1, [], [(⟨0, 1, [100]⟩, 1)], true, true, false, true, 0, [],
      [], true⟩ := by
  have h : sysRun fetchHeadOne false 3 =
      sysStep fetchHeadOne false (sysRun fetchHeadOne false 2) := rfl
  rw [h, c3run2]
  decide

/-- C3 counterexample.  Concrete run (`Jobs = 1`, `live = false`, server
always advertising head `K = 1`, every fragment downloadable): the request
`{cur_seq = 1, max_seq = 1}` makes the worker mark the track finished
without fetching sequence 1 (`CurSequence >= MaxSequence` at Info.go line
817), and the pipeline terminates cleanly with `cur_frag = 1`, not the
claimed `K + 1 = 2`: the final fragment is never written. -/
theorem C3_terminates_without_last_fragment :
    (sysRun fetchHeadOne false 3).coordDone = true ∧
    (sysRun fetchHeadOne false 3).finished = true ∧
    (sysRun fetchHeadOne false 3).stopping = false ∧
    (sysRun fetchHeadOne false 3).curFrag = 1 ∧
    (sysRun fetchHeadOne false 3).curFrag ≠ 2 := by
  rw [c3run3]
  exact ⟨rfl, rfl, rfl, rfl, by decide⟩

/-- C3 as amended: a worker that receives a request whose snapshot
`max_seq` is above `-1` on a non-live stream with `cur_seq ≥ max_seq`
marks the track finished and exits (decrementing the job count) *without
fetching that request's sequence* — it publishes nothing for it.
Termination then follows, but `cur_frag = K + 1` is not guaranteed: the
sequences from the finish-triggering request onward are never fetched, so
the pipeline can exit cleanly with `cur_frag ≤ K` (see the
counterexample). -/
theorem C3_amended_finish_skips_fetch (fetch : FetchFn) (live : Bool) (s : Sys)
    (req : Nat × Int) (h1 : s.stopping = false) (h2 : s.finished = false)
    (h3 : req.2 > -1) (h4 : live = false) (h5 : (req.1 : Int) ≥ req.2) :
    (workerHandleReq fetch live s req).finished = true ∧
    (workerHandleReq fetch live s req).workerExited = true ∧
    (workerHandleReq fetch live s req).dataQueue = s.dataQueue ∧
    (workerHandleReq fetch live s req).activeJobs = s.activeJobs - 1 := by
  simp [workerHandleReq, h1, h2, h4, h3, h5]

/-- Witness for `C3_amended_finish_skips_fetch` at the concrete request
`{cur_seq = 1, max_seq = 1}` from the initial pipeline state. -/
theorem C3_amended_finish_skips_fetch_witness :
    (workerHandleReq fetchHeadOne false sysInit (1, 1)).finished = true ∧
    (workerHandleReq fetchHeadOne false sysInit (1, 1)).dataQueue = [] :=
  have h := C3_amended_finish_skips_fetch fetchHeadOne false sysInit (1, 1)
    rfl rfl (by decide) rfl (by decide)
  ⟨h.1, h.2.2.1⟩

/-- The first-chunk buffer of a payload that exactly fills it. -/
theorem firstChunkBuf_replicate_full :
    firstChunkBuf (List.replicate 8192 1) = List.replicate 8192 1 := by
  simp only [firstChunkBuf]
  rw [List.take_of_length_le
    (by simp only [List.length_replicate, BufferSize]; omega)]
  simp only [List.length_replicate, BufferSize, Nat.sub_self,
    List.replicate_zero, List.append_nil]

/-- `RemoveSidx` is a no-op on an all-ones buffer. -/
theorem RemoveSidx_replicate_full :
    RemoveSidx (List.replicate 8192 1) = List.replicate 8192 1 := by
  simp only [RemoveSidx]
  rw [if_neg]
  intro h
  have hA := h.1
  rw [headD_drop_replicate] at hA
  norm_num at hA

/-- An 8192-byte sidx-free fragment is written as a single full chunk. -/
theorem fragChunkLens_replicate_full :
    fragChunkLens (List.replicate 8192 1) = [8192] := by
  simp only [fragChunkLens, firstChunkBuf_replicate_full, RemoveSidx_replicate_full,
    List.length_replicate, BufferSize, Nat.sub_self]
  rw [chunkLens]

/-- C4.  Evaluating the write-retry loop at the failing input: an 8192-byte
fragment whose first write attempt fails after the kernel accepted 5 bytes
(position already advanced by 5), followed by a successful retry.  The
code's `f.Seek(int64(bytesWritten), 1)` moves a further 5 bytes forward, so
the retry runs at offset 10 and the final position is 8202, not the 8192
that would have resulted without failures; the code's own comment says it
is setting the offset back.  With every write failing, the 10-attempt
budget is exhausted (`triesLeft = 0`), the state in which line 1040 calls
`di.Stop()`. -/
theorem C4_failed_write_seeks_forward :
    writeFragLoop writeOracleC4 (fragChunkLens (List.replicate 8192 1)) 10 0 0 =
      ⟨true, 8202, 10, 2⟩ ∧
    (writeFragLoop writeOracleC4 (fragChunkLens (List.replicate 8192 1)) 10 0 0).pos ≠
      8192 ∧
    (writeFragLoop writeOracleFail (fragChunkLens (List.replicate 8192 1)) 10 0 0).triesLeft =
      0 ∧
    (writeFragLoop writeOracleFail (fragChunkLens (List.replicate 8192 1)) 10 0 0).ok =
      false := by
  rw [fragChunkLens_replicate_full]
  refine ⟨?_, ?_, ?_, ?_⟩ <;> decide

/-- C7 counterexample.  A worker spawned while the template was host `a`
builds its request URL from the cached `state.Url` even after
`SetDownloadUrl` stored a new template with host `b`: the attempt's URL is
still the `a` URL (only the `Host` header follows the refresh), refuting
the claim that the template is re-read through the accessor on every
attempt. -/
theorem C7_worker_uses_cached_template :
    fragRequest
        (NewFragThreadState ⟨"https://a.example/seg?sq=%d", "a.example"⟩ 5)
        (SetDownloadUrl ⟨"https://a.example/seg?sq=%d", "a.example"⟩
          "https://b.example/seg?sq=%d") 7 =
      ⟨"https://a.example/seg?sq=7", "b.example"⟩ ∧
    formatSeq "https://b.example/seg?sq=%d" 7 = "https://b.example/seg?sq=7" ∧
    "https://a.example/seg?sq=7" ≠ "https://b.example/seg?sq=7" := by
  refine ⟨?_, ?_, ?_⟩ <;> decide

/-- C7 as amended: on every attempt the worker's request URL is built from
the template cached in the thread state at spawn time, while the
`Host`/`Referer` headers re-read the track's current `url_host` through
the accessor — so a URL refresh is picked up only in the host headers of
later attempts, never in the request URL. -/
theorem C7_amended_url_from_spawn_host_current
    (spawn now1 now2 : MediaDLInfo) (td n1 n2 : Nat) :
    fragRequest (NewFragThreadState spawn td) now1 n1 =
      ⟨formatSeq spawn.DownloadURL n1, now1.URLHost⟩ ∧
    fragRequest (NewFragThreadState spawn td) now2 n2 =
      ⟨formatSeq spawn.DownloadURL n2, now2.URLHost⟩ :=
  ⟨rfl, rfl⟩

/-- C8 counterexample.  A present but unparseable `X-Head-Seqnum` header
(`"abc"`) yields `head_seq = 0` — `strconv.Atoi`'s zero value with the
error discarded — not the claimed `-1`. -/
theorem C8_unparseable_header_gives_zero :
    headSeqnumOf "abc" = 0 ∧ headSeqnumOf "abc" ≠ -1 := by
  refine ⟨?_, ?_⟩ <;> decide

/-- C8 as amended: `head_seq` is `-1` when the header is absent (Go's
`Header.Get` returns the empty string), the parsed value when the header
parses as a decimal integer in the 64-bit range, and `0` when the header
is present but unparseable. -/
theorem C8_amended_head_seq_cases (s : String) (v : Int) :
    headSeqnumOf "" = -1 ∧
    (s.length ≠ 0 → parseIntOpt s = none → headSeqnumOf s = 0) ∧
    (parseIntOpt s = some v → -9223372036854775808 ≤ v →
      v ≤ 9223372036854775807 → s.length ≠ 0 → headSeqnumOf s = v) := by
  refine ⟨rfl, ?_, ?_⟩
  · intro hlen hp
    simp [headSeqnumOf, goAtoi, hp, Nat.pos_of_ne_zero hlen]
  · intro hp hlo hhi hlen
    simp [headSeqnumOf, goAtoi, hp, Nat.pos_of_ne_zero hlen, clampInt64]
    omega

/-- Witness for `C8_amended_head_seq_cases` at the concrete headers
`"zz"` (present, unparseable) and `"42"` (present, parseable). -/
theorem C8_amended_head_seq_cases_witness :
    headSeqnumOf "zz" = 0 ∧ headSeqnumOf "42" = 42 :=
  ⟨(C8_amended_head_seq_cases "zz" 0).2.1 (by decide) (by decide),
   (C8_amended_head_seq_cases "42" 42).2.2 (by decide) (by decide) (by decide)
     (by decide)⟩

/-- C9 counterexample.  `SetDownloadUrl` with a URL Go's parser rejects (a
control character) still rewrites `DownloadURL` but leaves `URLHost` as
the host of the *previous* template: after storing the `b.example`
template, `url_host` is still `"a.example"`. -/
theorem C9_host_left_stale_on_parse_error :
    SetDownloadUrl (SetDownloadUrl ⟨"", ""⟩ "https://a.example/x")
        "https://b.example/\n" =
      ⟨"https://b.example/\n", "a.example"⟩ ∧
    extractHost "https://b.example/\n" = "b.example" ∧
    "a.example" ≠ "b.example" := by
  refine ⟨?_, ?_, ?_⟩ <;> decide

/-- C9 as amended: when the new URL parses, `SetDownloadUrl` updates
`download_url_template` and `url_host` together under the single write
lock; when parsing fails, it still rewrites the template but keeps the
previous `url_host`. -/
theorem C9_amended_set_download_url (m : MediaDLInfo) (u h : String) :
    (goUrlParseHost u = some h → SetDownloadUrl m u = ⟨u, h⟩) ∧
    (goUrlParseHost u = none → SetDownloadUrl m u = ⟨u, m.URLHost⟩) := by
  constructor
  · intro hp; simp [SetDownloadUrl, hp]
  · intro hp; simp [SetDownloadUrl, hp]

/-- Witness for `C9_amended_set_download_url`: a parseable and an
unparseable concrete URL. -/
theorem C9_amended_set_download_url_witness :
    SetDownloadUrl ⟨"", "old.example"⟩ "https://c.example/p" =
      ⟨"https://c.example/p", "c.example"⟩ ∧
    SetDownloadUrl ⟨"", "old.example"⟩ "\n" = ⟨"\n", "old.example"⟩ :=
  ⟨(C9_amended_set_download_url ⟨"", "old.example"⟩ "https://c.example/p"
      "c.example").1 (by decide),
   (C9_amended_set_download_url ⟨"", "old.example"⟩ "\n" "").2 (by decide)⟩

/-- Attempt count of a trace starting with an attempt. -/
theorem countAttempts_cons_attempt (l : List DFEvent) :
    countAttempts (.attemptE :: l) = countAttempts l + 1 := by
  simp [countAttempts]

/-- Attempt count of a trace starting with a sleep. -/
theorem countAttempts_cons_sleep (d : Nat) (l : List DFEvent) :
    countAttempts (.sleepE d :: l) = countAttempts l := by
  simp [countAttempts]

/-- A leading sleep does not affect attempt adjacency. -/
theorem noAdjacentAttempts_cons_sleep (d : Nat) (l : List DFEvent) :
    noAdjacentAttempts (.sleepE d :: l) = noAdjacentAttempts l := by
  cases l with
  | nil => rfl
  | cons e rest => rfl

/-- An attempt followed by a sleep keeps attempt adjacency intact. -/
theorem noAdjacentAttempts_attempt_sleep (d : Nat) (l : List DFEvent) :
    noAdjacentAttempts (.attemptE :: .sleepE d :: l) = noAdjacentAttempts l := by
  rw [show noAdjacentAttempts (.attemptE :: .sleepE d :: l) =
    noAdjacentAttempts (.sleepE d :: l) from rfl]
  exact noAdjacentAttempts_cons_sleep d l

/-- Trace and publication invariants of the `downloadFragment` retry loop,
by induction on the remaining tries. -/
theorem dfGo_spec (env : Nat → AttemptEnv) (cont : Nat → Bool → Bool) (td : Nat) :
    ∀ (fuel tries : Nat) (is403 : Bool) (idx : Nat),
      countAttempts (downloadFragmentGo env cont td fuel tries is403 idx).events ≤
        fuel ∧
      noAdjacentAttempts (downloadFragmentGo env cont td fuel tries is403 idx).events =
        true ∧
      sleepsAre td (downloadFragmentGo env cont td fuel tries is403 idx).events =
        true ∧
      ((downloadFragmentGo env cont td fuel tries is403 idx).sent.isSome =
        decide ((downloadFragmentGo env cont td fuel tries is403 idx).exitR =
          DFExit.publishedE)) ∧
      (downloadFragmentGo env cont td fuel tries is403 idx).contCalls +
          (if (downloadFragmentGo env cont td fuel tries is403 idx).sent.isSome
            then 1 else 0) =
        countAttempts (downloadFragmentGo env cont td fuel tries is403 idx).events := by
  intro fuel
  induction fuel with
  | zero =>
    intro tries is403 idx
    simp [downloadFragmentGo, countAttempts, noAdjacentAttempts, sleepsAre]
  | succ n ih =>
    intro tries is403 idx
    simp only [downloadFragmentGo]
    cases hstop : (env idx).stopping with
    | true =>
      simp [countAttempts, noAdjacentAttempts, sleepsAre]
    | false =>
      simp only [Bool.false_eq_true, if_false]
      cases hout : (env idx).outcome with
      | fetchOk h =>
        simp [countAttempts, noAdjacentAttempts, sleepsAre]
      | reqError =>
        cases hcont : cont (tries + 1) is403 with
        | true =>
          have hr := ih (tries + 1) is403 (idx + 1)
          simp only [hcont, if_true]
          refine ⟨?_, ?_, ?_, hr.2.2.2.1, ?_⟩
          · rw [countAttempts_cons_attempt, countAttempts_cons_sleep]
            omega
          · rw [noAdjacentAttempts_attempt_sleep]
            exact hr.2.1
          · simp only [sleepsAre, List.all_cons] at hr ⊢
            simp [hr.2.2.1]
          · rw [countAttempts_cons_attempt, countAttempts_cons_sleep]
            have := hr.2.2.2.2
            omega
        | false =>
          simp [hcont, countAttempts, noAdjacentAttempts, sleepsAre]
      | readError =>
        cases hcont : cont (tries + 1) is403 with
        | true =>
          have hr := ih (tries + 1) is403 (idx + 1)
          simp only [hcont, if_true]
          refine ⟨?_, ?_, ?_, hr.2.2.2.1, ?_⟩
          · rw [countAttempts_cons_attempt, countAttempts_cons_sleep]
            omega
          · rw [noAdjacentAttempts_attempt_sleep]
            exact hr.2.1
          · simp only [sleepsAre, List.all_cons] at hr ⊢
            simp [hr.2.2.1]
          · rw [countAttempts_cons_attempt, countAttempts_cons_sleep]
            have := hr.2.2.2.2
            omega
        | false =>
          simp [hcont, countAttempts, noAdjacentAttempts, sleepsAre]
      | httpError code =>
        cases hcont : cont (tries + 1) (is403 || (code == 403)) with
        | true =>
          have hr := ih (tries + 1) (is403 || (code == 403)) (idx + 1)
          simp only [hcont, if_true]
          refine ⟨?_, ?_, ?_, hr.2.2.2.1, ?_⟩
          · rw [countAttempts_cons_attempt, countAttempts_cons_sleep]
            omega
          · rw [noAdjacentAttempts_attempt_sleep]
            exact hr.2.1
          · simp only [sleepsAre, List.all_cons] at hr ⊢
            simp [hr.2.2.1]
          · rw [countAttempts_cons_attempt, countAttempts_cons_sleep]
            have := hr.2.2.2.2
            omega
        | false =>
          simp [hcont, countAttempts, noAdjacentAttempts, sleepsAre]
      | emptyBody =>
        cases hcont : cont (tries + 1) is403 with
        | true =>
          have hr := ih (tries + 1) is403 (idx + 1)
          simp only [hcont, if_true]
          refine ⟨?_, ?_, ?_, hr.2.2.2.1, ?_⟩
          · rw [countAttempts_cons_attempt, countAttempts_cons_sleep]
            omega
          · rw [noAdjacentAttempts_attempt_sleep]
            exact hr.2.1
          · simp only [sleepsAre, List.all_cons] at hr ⊢
            simp [hr.2.2.1]
          · rw [countAttempts_cons_attempt, countAttempts_cons_sleep]
            have := hr.2.2.2.2
            omega
        | false =>
          simp [hcont, countAttempts, noAdjacentAttempts, sleepsAre]
      | writeFail =>
        cases hcont : cont (tries + 1) is403 with
        | true =>
          have hr := ih (tries + 1) is403 (idx + 1)
          simp only [hcont, if_true]
          refine ⟨?_, ?_, ?_, hr.2.2.2.1, ?_⟩
          · rw [countAttempts_cons_attempt, countAttempts_cons_sleep]
            omega
          · rw [noAdjacentAttempts_attempt_sleep]
            exact hr.2.1
          · simp only [sleepsAre, List.all_cons] at hr ⊢
            simp [hr.2.2.1]
          · rw [countAttempts_cons_attempt, countAttempts_cons_sleep]
            have := hr.2.2.2.2
            omega
        | false =>
          simp [hcont, countAttempts, noAdjacentAttempts, sleepsAre]

/-- C6.  Over every environment (attempt outcomes and `stopping`
snapshots) and every `ContinueFragmentDownload` policy, a
`downloadFragment` call makes at most `FragMaxTries = 10` fetch attempts;
a sleep — always of the stream's target fragment duration — separates any
two consecutive attempts; every failing attempt (transport error,
body-read error, status ≥ 400, empty body, spill-write failure) goes
through the retry decision, so the number of `ContinueFragmentDownload`
consultations equals the number of failed attempts; and a fragment is
published exactly when the loop exits by success — on exhaustion,
abandonment or stop, nothing is sent. -/
theorem C6_retry_policy (env : Nat → AttemptEnv) (cont : Nat → Bool → Bool)
    (td : Nat) :
    countAttempts (runDF env cont td).events ≤ FragMaxTries ∧
    noAdjacentAttempts (runDF env cont td).events = true ∧
    sleepsAre td (runDF env cont td).events = true ∧
    (runDF env cont td).sent.isSome =
      decide ((runDF env cont td).exitR = DFExit.publishedE) ∧
    (runDF env cont td).contCalls +
        (if (runDF env cont td).sent.isSome then 1 else 0) =
      countAttempts (runDF env cont td).events :=
  dfGo_spec env cont td FragMaxTries 0 false 0

/-- Enqueueing preserves the dispatch-trace shape. -/
theorem enqueueReq_trace (s : CoordState) (h : s.trace = List.range s.curSeq) :
    (enqueueReq s).trace = List.range (enqueueReq s).curSeq := by
  simp [enqueueReq, h, List.range_succ]

/-- The window-dispatch loop preserves the counter bounds and the trace
shape. -/
theorem dispatchWide_inv (jobs : Nat) : ∀ (fuel : Nat) (s : CoordState),
    s.activeDownloads ≤ (jobs : Int) → s.activeJobs ≤ (jobs : Int) →
    s.trace = List.range s.curSeq →
    (dispatchWide jobs fuel s).activeDownloads ≤ (jobs : Int) ∧
    (dispatchWide jobs fuel s).activeJobs ≤ (jobs : Int) ∧
    (dispatchWide jobs fuel s).trace = List.range (dispatchWide jobs fuel s).curSeq := by
  intro fuel
  induction fuel with
  | zero => intro s h1 h2 h3; exact ⟨h1, h2, h3⟩
  | succ n ih =>
    intro s h1 h2 h3
    simp only [dispatchWide]
    split
    case isTrue h =>
      exact ih (enqueueReq s) (by simp [enqueueReq]; omega)
        (by simpa [enqueueReq] using h2) (enqueueReq_trace s h3)
    case isFalse h => exact ⟨h1, h2, h3⟩

/-- The stall-recovery loop preserves the counter bounds and the trace
shape. -/
theorem stallGo_inv : ∀ (fuel : Nat) (s : CoordState) (jobs : Nat),
    s.activeDownloads ≤ (jobs : Int) → s.activeJobs ≤ (jobs : Int) →
    s.trace = List.range s.curSeq →
    (stallGo fuel s).activeDownloads ≤ (jobs : Int) ∧
    (stallGo fuel s).activeJobs ≤ (jobs : Int) ∧
    (stallGo fuel s).trace = List.range (stallGo fuel s).curSeq := by
  intro fuel
  induction fuel with
  | zero => intro s jobs h1 h2 h3; exact ⟨h1, h2, h3⟩
  | succ n ih =>
    intro s jobs h1 h2 h3
    simp only [stallGo]
    split
    case isTrue h =>
      exact ih (enqueueReq s) jobs (by simp [enqueueReq]; omega)
        (by simpa [enqueueReq] using h2) (enqueueReq_trace s h3)
    case isFalse h => exact ⟨h1, h2, h3⟩

/-- The priming loop keeps `activeDownloads = activeJobs ≤ jobs` and the
trace shape. -/
theorem primeGo_inv (jobs : Nat) : ∀ (fuel : Nat) (s : CoordState),
    s.activeDownloads = s.activeJobs → s.activeJobs ≤ (jobs : Int) →
    s.trace = List.range s.curSeq →
    (primeGo jobs fuel s).activeDownloads = (primeGo jobs fuel s).activeJobs ∧
    (primeGo jobs fuel s).activeJobs ≤ (jobs : Int) ∧
    (primeGo jobs fuel s).trace = List.range (primeGo jobs fuel s).curSeq := by
  intro fuel
  induction fuel with
  | zero => intro s h1 h2 h3; exact ⟨h1, h2, h3⟩
  | succ n ih =>
    intro s h1 h2 h3
    simp only [primeGo]
    split
    case isTrue h =>
      refine ih (primeStep s) (by simp [primeStep]; omega)
        (by simp [primeStep]; omega) ?_
      simp [primeStep, h3, List.range_succ]
    case isFalse h => exact ⟨h1, h2, h3⟩

/-- The initial (primed) coordinator state satisfies the invariant. -/
theorem coordInit_inv (jobs : Nat) :
    (coordInit jobs).activeDownloads ≤ (jobs : Int) ∧
    (coordInit jobs).activeJobs ≤ (jobs : Int) ∧
    (coordInit jobs).trace = List.range (coordInit jobs).curSeq := by
  have hc : coordInit jobs = primeGo jobs jobs ⟨0, 0, -1, 0, []⟩ := rfl
  have h := primeGo_inv jobs jobs ⟨0, 0, -1, 0, []⟩ rfl
    (by show (0 : Int) ≤ (jobs : Int); omega) (by simp)
  rw [hc]
  exact ⟨by omega, h.2.1, h.2.2⟩

/-- Every coordinator transition preserves the invariant. -/
theorem coordStep_inv (jobs : Nat) (s : CoordState) (e : CoordEvent)
    (h1 : s.activeDownloads ≤ (jobs : Int)) (h2 : s.activeJobs ≤ (jobs : Int))
    (h3 : s.trace = List.range s.curSeq) :
    (coordStep jobs s e).activeDownloads ≤ (jobs : Int) ∧
    (coordStep jobs s e).activeJobs ≤ (jobs : Int) ∧
    (coordStep jobs s e).trace = List.range (coordStep jobs s e).curSeq := by
  cases e with
  | recv hd downloading stopping =>
    simp only [coordStep]
    split
    case isTrue hb =>
      split
      case isTrue hm =>
        refine dispatchWide_inv jobs _ _ ?_ ?_ ?_
        · show s.activeDownloads - 1 ≤ (jobs : Int)
          omega
        · exact h2
        · exact h3
      case isFalse hm =>
        refine ⟨?_, ?_, enqueueReq_trace _ h3⟩
        · show s.activeDownloads - 1 + 1 ≤ (jobs : Int)
          omega
        · exact h2
    case isFalse hb =>
      refine ⟨?_, h2, h3⟩
      show s.activeDownloads - 1 ≤ (jobs : Int)
      omega
  | stall =>
    exact stallGo_inv _ _ jobs h1 h2 h3
  | workerExit =>
    refine ⟨h1, ?_, h3⟩
    show s.activeJobs - 1 ≤ (jobs : Int)
    omega

/-- The invariant holds after any sequence of coordinator transitions. -/
theorem coordFold_inv (jobs : Nat) : ∀ (evs : List CoordEvent) (s : CoordState),
    s.activeDownloads ≤ (jobs : Int) → s.activeJobs ≤ (jobs : Int) →
    s.trace = List.range s.curSeq →
    (evs.foldl (coordStep jobs) s).activeDownloads ≤ (jobs : Int) ∧
    (evs.foldl (coordStep jobs) s).activeJobs ≤ (jobs : Int) ∧
    (evs.foldl (coordStep jobs) s).trace =
      List.range (evs.foldl (coordStep jobs) s).curSeq := by
  intro evs
  induction evs with
  | nil => intro s h1 h2 h3; exact ⟨h1, h2, h3⟩
  | cons e rest ih =>
    intro s h1 h2 h3
    have h := coordStep_inv jobs s e h1 h2 h3
    exact ih (coordStep jobs s e) h.1 h.2.1 h.2.2

/-- C5.  Along every coordinator run — priming, then any sequence of
fragment receipts (with any head-seq values and `downloading`/`stopping`
snapshots), stall recoveries and worker exits — `activeDownloads` never
exceeds `jobs`, the track's `activeJobs` never exceeds `jobs`, and the
sequence numbers sent on `seqChan` are exactly `0, 1, 2, …, curSeq - 1` in
that order: each enqueue raises `curSeq` and `activeDownloads` by exactly
one, so dispatch order is strictly increasing from 0. -/
theorem C5_dispatch_bounded_and_in_order (jobs : Nat) (evs : List CoordEvent) :
    (coordRun jobs evs).activeDownloads ≤ (jobs : Int) ∧
    (coordRun jobs evs).activeJobs ≤ (jobs : Int) ∧
    (coordRun jobs evs).trace = List.range (coordRun jobs evs).curSeq := by
  have h := coordInit_inv jobs
  exact coordFold_inv jobs evs (coordInit jobs) h.1 h.2.1 h.2.2

/-- Exact characterisation of the stall-recovery loop run with its exact
fuel: it dispatches the fresh sequence numbers `curSeq, …,
curSeq + k - 1` (where `k = max 0 (activeJobs - activeDownloads)`) and
leaves `activeDownloads = max activeDownloads activeJobs`. -/
theorem stallGo_char : ∀ (fuel : Nat) (s : CoordState),
    fuel = (s.activeJobs - s.activeDownloads).toNat →
    (stallGo fuel s).curSeq = s.curSeq + fuel ∧
    (stallGo fuel s).activeDownloads = s.activeDownloads + fuel ∧
    (stallGo fuel s).activeJobs = s.activeJobs ∧
    (stallGo fuel s).trace = s.trace ++ List.range' s.curSeq fuel := by
  intro fuel
  induction fuel with
  | zero =>
    intro s _
    simp [stallGo]
  | succ n ih =>
    intro s h
    have hlt : s.activeDownloads < s.activeJobs := by omega
    simp only [stallGo, if_pos hlt]
    have hfuel : n = ((enqueueReq s).activeJobs -
        (enqueueReq s).activeDownloads).toNat := by
      simp [enqueueReq]; omega
    have h2 := ih (enqueueReq s) hfuel
    refine ⟨?_, ?_, ?_, ?_⟩
    · rw [h2.1]; simp [enqueueReq]; omega
    · rw [h2.2.1]; simp [enqueueReq]; omega
    · rw [h2.2.2.1]; simp [enqueueReq]
    · rw [h2.2.2.2]
      simp [enqueueReq, List.range'_succ]

/-- C2 as amended: the stall-recovery path dispatches only fresh requests —
`stallFill` enqueues exactly the sequence numbers `curSeq, …` until
`activeDownloads` equals the track's `activeJobs` — and no coordinator run
ever dispatches the same sequence number twice (the trace has no
duplicates); a sequence a worker abandoned is therefore never re-fetched.
Because an abandoned sequence also leaves `activeDownloads` permanently
over-counted, the recovery guard `activeDownloads ≤ 0` is not even
triggered by abandonment (see the counterexample), and the output file
permanently stops before the abandoned sequence. -/
theorem C2_amended_stall_dispatches_fresh (jobs : Nat) (evs : List CoordEvent)
    (s : CoordState) :
    (coordRun jobs evs).trace.Nodup ∧
    (stallFill s).trace =
      s.trace ++ List.range' s.curSeq (s.activeJobs - s.activeDownloads).toNat ∧
    (stallFill s).activeDownloads = max s.activeDownloads s.activeJobs ∧
    (stallFill s).curSeq = s.curSeq + (s.activeJobs - s.activeDownloads).toNat := by
  have hchar := stallGo_char (s.activeJobs - s.activeDownloads).toNat s rfl
  have hfill : stallFill s = stallGo (s.activeJobs - s.activeDownloads).toNat s := rfl
  refine ⟨?_, hchar.2.2.2, ?_, hchar.1⟩
  · have h0 := coordInit_inv jobs
    have h := coordFold_inv jobs evs (coordInit jobs) h0.1 h0.2.1 h0.2.2
    have hrun : coordRun jobs evs = evs.foldl (coordStep jobs) (coordInit jobs) := rfl
    rw [hrun, h.2.2]
    exact List.nodup_range _
  · rw [hfill, hchar.2.1]
    rcases le_total s.activeJobs s.activeDownloads with hle | hle
    · rw [max_eq_left hle]
      omega
    · rw [max_eq_right hle]
      omega

/-- C10.  If `os.Create` fails, `DownloadStream` calls the global `Stop`
(sticky `stopping` plus both tracks finished), spawns no workers, writes
no bytes, and the deferred send still delivers exactly one value on the
`done` channel. -/
theorem C10_create_failure_stops_everything (g : GlobalFlags) :
    DownloadStreamOpen g false = ⟨⟨true, true, true⟩, 0, [], 1, false⟩ ∧
    Stop g = ⟨true, true, true⟩ :=
  ⟨rfl, rfl⟩

end YTArchive
